import Mathlib

/-!
Verification development for the unreliable-text structured-data recovery
engine of the Warehouse-AI-System repository.

The definitions below are a shallow embedding of the TypeScript source:

* `src/lib/llm-providers.ts`, `GeminiProvider.generateTasks`, lines 521-894:
  the fence/envelope stripper, the textual cleanup regexes, the two
  quote-disambiguation state machines, the tiered parse chain and the
  task validator;
* `src/app/api/test-scenarios/route.ts`, lines 171-286: `extractPath`
  and its obstacle filter.

JavaScript strings are embedded as `List Char`; each `String.replace`
call with a regex is embedded as a dedicated scanner implementing the
exact backtracking semantics of that pattern; `JSON.parse` is embedded
as a strict JSON parser; JavaScript numbers (which can be `NaN`, e.g.
from `Number([1,1])`) are embedded as `Option Rat` with `none` for `NaN`.
-/

set_option maxRecDepth 4000

namespace Warehouse

/-- JavaScript `\s` on the characters that can occur here: space, tab,
newline, carriage return, vertical tab, form feed, NBSP, BOM, and the
general unicode space block used by the `\s` class. -/
def isJsWs (c : Char) : Bool :=
  let n := c.toNat
  n = 0x20 || n = 0x9 || n = 0xa || n = 0xd || n = 0xb || n = 0xc ||
  n = 0xa0 || n = 0x1680 || (0x2000 ≤ n && n ≤ 0x200a) ||
  n = 0x2028 || n = 0x2029 || n = 0x202f || n = 0x205f ||
  n = 0x3000 || n = 0xfeff

/-- JSON whitespace as accepted by `JSON.parse`: space, tab, newline,
carriage return only. -/
def isJsonWs (c : Char) : Bool :=
  c = ' ' || c = '\t' || c = '\n' || c = '\r'

/-- ASCII lower-casing, as `String.prototype.toLowerCase` acts on the
ASCII inputs relevant here. -/
def lowChar (c : Char) : Char :=
  if 'A' ≤ c && c ≤ 'Z' then Char.ofNat (c.toNat + 32) else c

/-- Case-insensitive character comparison (ASCII), for regexes built with
the `i` flag. -/
def ciEq (a b : Char) : Bool := lowChar a = lowChar b

/-- `String.prototype.trim`, dropping JS whitespace from both ends. -/
def jsTrim (l : List Char) : List Char :=
  ((l.dropWhile isJsWs).reverse.dropWhile isJsWs).reverse

/-- Whether `pat` occurs as a contiguous substring of `l`
(JS `String.prototype.includes`). -/
def hasSub (l pat : List Char) : Bool :=
  match l with
  | [] => pat.isEmpty
  | _ :: rest => pat.isPrefixOf l || hasSub rest pat

/-- Case-insensitive substring check (for `.toLowerCase().includes(...)`
the source lowercases the subject; the pattern constants are already
lowercase). -/
def hasSubCI (l pat : List Char) : Bool :=
  hasSub (l.map lowChar) pat

/-- Number of occurrences of a character (JS `(s.match(/x/g) || []).length`). -/
def countChar (l : List Char) (c : Char) : Nat :=
  l.countP (· = c)

/-! ## The quote-disambiguation state machine

`GeminiProvider.generateTasks` contains two copies of the
character-by-character state machine that decides, for every `"` met
while inside a string value, whether it closes the value or is embedded
content to be escaped. The first copy (lines 548-628) additionally
treats a line break as closing the value; the second copy
(lines 665-735, inside the first catch block) lacks those two
disjuncts. The flag `nl` selects between them. -/

/-- Lookahead fragment `\s*:` of the regex `/^"[R1-R4]\s*:/`, evaluated
inside the 20-character lookahead window (greedy `\s*`; whitespace and
`:` are disjoint so no backtracking arises). -/
def wsThenColon : List Char → Bool
  | [] => false
  | c :: t => if c = ':' then true else if isJsWs c then wsThenColon t else false

/-- The lookahead regex `/^"[R1-R4]\s*:/` (source line 604). Note that
`[R1-R4]` is a character class — the single characters `R`, `4` and the
range `1`-`R` — so the regex matches a quote followed by ONE class
character and then a colon. -/
def lookRegex1 (w : List Char) : Bool :=
  match w with
  | '"' :: c :: t => ('1' ≤ c && c ≤ 'R') && wsThenColon t
  | _ => false

/-- Tail of the lookahead regex `/^"\s*[,}\]\n\r]/`: backtracking over the
greedy `\s*` makes it match as soon as either a terminator character is
reached or a newline (which is both `\s` and in the class) occurs. -/
def lookRegex2Tail : List Char → Bool
  | [] => false
  | c :: t =>
    if c = ',' || c = '}' || c = ']' || c = '\n' || c = '\r' then true
    else if isJsWs c then lookRegex2Tail t else false

/-- The lookahead regex `/^"\s*[,}\]\n\r]/` (source line 605). -/
def lookRegex2 (w : List Char) : Bool :=
  match w with
  | '"' :: t => lookRegex2Tail t
  | _ => false

/-- The `closesString` decision of the state machine, applied to the text
following the quote under consideration. The source first skips
whitespace forward to find `nextChar` and takes a 20-character window
from there for the two regexes. The `nextChar === '\n' || '\r'`
disjuncts of the first machine (lines 602-603) are kept although they
can never hold: the whitespace skip has already consumed any newline. -/
def closesAux (nl : Bool) : List Char → Bool
  | [] => true
  | c :: t =>
    if isJsWs c then closesAux nl t
    else
      let w := (c :: t).take 20
      (c = ',' || c = '}' || c = ']') ||
      (nl && (c = '\n' || c = '\r')) ||
      lookRegex1 w || lookRegex2 w

/-- One step of the state machine (source lines 553-626 resp. 670-735).
State: `esc` (`escapeNext`), `inStr` (`insideStringValue`), and `last`,
the most recent non-whitespace character already consumed — the source
finds it by scanning backward over the original text, which is
equivalent to carrying it along. -/
def fixQGo (nl : Bool) : Bool → Bool → Option Char → List Char → List Char
  | _, _, _, [] => []
  | true, inStr, last, c :: rest =>
    c :: fixQGo nl false inStr (if isJsWs c then last else some c) rest
  | false, inStr, last, c :: rest =>
    if c = '\\' then
      c :: fixQGo nl true inStr (some '\\') rest
    else if c = '"' then
      if inStr then
        if closesAux nl rest then
          '"' :: fixQGo nl false false (some '"') rest
        else
          -- Both the `isUnescapedQuote` branch and the default branch of
          -- the source emit an escaped quote.
          '\\' :: '"' :: fixQGo nl false true (some '"') rest
      else
        if last = some ':' then
          '"' :: fixQGo nl false true (some '"') rest
        else
          '"' :: fixQGo nl false false (some '"') rest
    else
      c :: fixQGo nl false inStr (if isJsWs c then last else some c) rest

/-- The first quote-fixing pass (source lines 548-628). -/
def fixQuotes1 (l : List Char) : List Char := fixQGo true false false none l

/-- The second quote-fixing pass, inside the catch block
(source lines 665-735). -/
def fixQuotes2 (l : List Char) : List Char := fixQGo false false false none l

/-! ## Regex replacement scanners

A global `String.replace(regex, rep)` call scans left to right: at each
position it attempts a match; on success it emits the replacement and
resumes after the matched text, on failure it copies one character and
moves on. `replaceScan` is that driver; each regex of the source gets
its own matcher returning `(replacement, text after the match)`. All
matchers consume at least one character on success, so fuel
`length + 1` suffices. -/

def replaceScan (m : List Char → Option (List Char × List Char)) :
    Nat → List Char → List Char
  | 0, l => l
  | _ + 1, [] => []
  | fuel + 1, c :: rest =>
    match m (c :: rest) with
    | some (rep, suffix) => rep ++ replaceScan m fuel suffix
    | none => c :: replaceScan m fuel rest

/-- Run a matcher as a global replace over the whole text. -/
def applyRe (m : List Char → Option (List Char × List Char))
    (l : List Char) : List Char :=
  replaceScan m (l.length + 1) l

/-- The backtick character, `0x60`. -/
def btick : Char := Char.ofNat 0x60

/-- Matcher for the fence-stripping regex
`/```json\n?|\n?```/g` (source line 522), alternation tried left to
right, optional `\n` greedy. -/
def fenceTry (l : List Char) : Option (List Char × List Char) :=
  match l with
  | a :: b :: c :: 'j' :: 's' :: 'o' :: 'n' :: r =>
    if a = btick && b = btick && c = btick then
      match r with
      | '\n' :: r2 => some ([], r2)
      | _ => some ([], r)
    else fenceNl l
  | _ => fenceNl l
where
  /-- The second alternative `\n?```. -/
  fenceNl (l : List Char) : Option (List Char × List Char) :=
    match l with
    | '\n' :: a :: b :: c :: r =>
      if a = btick && b = btick && c = btick then some ([], r)
      else match l with
        | a :: b :: c :: r =>
          if a = btick && b = btick && c = btick then some ([], r) else none
        | _ => none
    | a :: b :: c :: r =>
      if a = btick && b = btick && c = btick then some ([], r) else none
    | _ => none

/-- Matcher for `/(["}])\s*,\s*[\n\r]+\s*['"]\s*\+\s*['"]/g → '$1, "'`
(source line 531). `\s*[\n\r]+\s*` followed by a non-space character is
equivalent to a whitespace run containing at least one line break. -/
def concat1Try (l : List Char) : Option (List Char × List Char) :=
  match l with
  | c :: r =>
    if c = '"' || c = '}' then
      let (_, r1) := r.span isJsWs
      match r1 with
      | ',' :: r2 =>
        let (w2, r3) := r2.span isJsWs
        if w2.any (fun x => x = '\n' || x = '\r') then
          match r3 with
          | q :: r4 =>
            if q = '\'' || q = '"' then
              let (_, r5) := r4.span isJsWs
              match r5 with
              | '+' :: r6 =>
                let (_, r7) := r6.span isJsWs
                match r7 with
                | q2 :: r8 =>
                  if q2 = '\'' || q2 = '"' then
                    some ([c, ',', ' ', '"'], r8)
                  else none
                | [] => none
              | _ => none
            else none
          | [] => none
        else none
      | _ => none
    else none
  | [] => none

/-- Matcher for `/\s*\+\s*['"]/g → ''` (source lines 532, 648, 649). -/
def concat2Try (l : List Char) : Option (List Char × List Char) :=
  let (_, r1) := l.span isJsWs
  match r1 with
  | '+' :: r2 =>
    let (_, r3) := r2.span isJsWs
    match r3 with
    | q :: r4 => if q = '\'' || q = '"' then some ([], r4) else none
    | [] => none
  | _ => none

/-- Find the first control character of a string-value body: scans for
the first `\n`/`\r`/`\t` that precedes any `"`, returning the text
before it and after it. This is the lazy `([^"]*?)([\n\r\t])` part of
the control-character regex. -/
def findCtrl : List Char → Option (List Char × Char × List Char)
  | [] => none
  | c :: t =>
    if c = '\n' || c = '\r' || c = '\t' then some ([], c, t)
    else if c = '"' then none
    else match findCtrl t with
      | some (before, k, after) => some (c :: before, k, after)
      | none => none

/-- The two-character escape for a control character. -/
def escCtrl (c : Char) : List Char :=
  if c = '\n' then ['\\', 'n']
  else if c = '\r' then ['\\', 'r']
  else if c = '\t' then ['\\', 't']
  else [c]

/-- Matcher for `/(:\s*")([^"]*?)([\n\r\t])/g` with the escaping
replacement function (source lines 536-540, 653-656, 764-767). -/
def ctrlTry (l : List Char) : Option (List Char × List Char) :=
  match l with
  | ':' :: r =>
    let (w, r1) := r.span isJsWs
    match r1 with
    | '"' :: r2 =>
      match findCtrl r2 with
      | some (before, k, after) =>
        some (':' :: w ++ '"' :: before ++ escCtrl k, after)
      | none => none
    | _ => none
  | _ => none

/-- Matcher for `/(["}])\s*[\n\r]+\s*"/g → '$1, "'`
(source lines 543, 660, 770). -/
def nlQuoteTry (l : List Char) : Option (List Char × List Char) :=
  match l with
  | c :: r =>
    if c = '"' || c = '}' then
      let (w, r1) := r.span isJsWs
      if w.any (fun x => x = '\n' || x = '\r') then
        match r1 with
        | '"' :: r2 => some ([c, ',', ' ', '"'], r2)
        | _ => none
      else none
    else none
  | [] => none

/-- Matcher for `/(["}])\s*[\n\r]+\s*}/g → '$1}'`
(source lines 544, 661). -/
def nlBraceTry (l : List Char) : Option (List Char × List Char) :=
  match l with
  | c :: r =>
    if c = '"' || c = '}' then
      let (w, r1) := r.span isJsWs
      if w.any (fun x => x = '\n' || x = '\r') then
        match r1 with
        | '}' :: r2 => some ([c, '}'], r2)
        | _ => none
      else none
    else none
  | [] => none

/-- Matcher for `/,\s*}/g → '}'` (source line 632). -/
def tcBraceTry (l : List Char) : Option (List Char × List Char) :=
  match l with
  | ',' :: r =>
    let (_, r1) := r.span isJsWs
    match r1 with
    | '}' :: r2 => some (['}'], r2)
    | _ => none
  | _ => none

/-- Matcher for `/,\s*]/g → ']'` (source line 633). -/
def tcBrackTry (l : List Char) : Option (List Char × List Char) :=
  match l with
  | ',' :: r =>
    let (_, r1) := r.span isJsWs
    match r1 with
    | ']' :: r2 => some ([']'], r2)
    | _ => none
  | _ => none

/-- A `\w` word character. -/
def isWordChar (c : Char) : Bool :=
  ('A' ≤ c && c ≤ 'Z') || ('a' ≤ c && c ≤ 'z') || ('0' ≤ c && c ≤ '9') || c = '_'

/-- Matcher for `/([{,]\s*)(\w+)(\s*):/g → '$1"$2":'` (source line 634). -/
def keyTry (l : List Char) : Option (List Char × List Char) :=
  match l with
  | c :: r =>
    if c = '{' || c = ',' then
      let (w1, r1) := r.span isJsWs
      let (word, r2) := r1.span isWordChar
      if word.isEmpty then none
      else
        let (w2, r3) := r2.span isJsWs
        match r3 with
        | ':' :: r4 =>
          some (c :: w1 ++ '"' :: word ++ '"' :: w2 ++ [':'], r4)
        | _ => none
    else none
  | [] => none

/-- Terminator check `\s*([,}])` used by the lazy middle of the
unquoted-value regex. -/
def valTerm (t : List Char) : Option (List Char × Char × List Char) :=
  let (wb, t1) := t.span isJsWs
  match t1 with
  | c :: t2 => if c = ',' || c = '}' then some (wb, c, t2) else none
  | [] => none

/-- Lazy expansion of `[^,}\]]*?` up to the first position where
`\s*[,}]` matches; characters `,`, `}`, `]` cannot be absorbed. -/
def valLazy (acc : List Char) (t : List Char) :
    Option (List Char × List Char × Char × List Char) :=
  match valTerm t with
  | some (wb, term, after) => some (acc.reverse, wb, term, after)
  | none =>
    match t with
    | [] => none
    | c :: t' =>
      if c = ',' || c = '}' || c = ']' then none
      else valLazy (c :: acc) t'
termination_by t.length

/-- Matcher for `/:\s*([^",{\[\]\s][^,}\]]*?)(\s*[,}])/g → ': "$1"$2'`
(source line 635). The replacement re-emits a single space after the
colon, not the original whitespace. -/
def valTry (l : List Char) : Option (List Char × List Char) :=
  match l with
  | ':' :: r =>
    let (_, r1) := r.span isJsWs
    match r1 with
    | f :: r2 =>
      if f = '"' || f = ',' || f = '{' || f = '[' || f = ']' || isJsWs f then none
      else
        match valLazy [] r2 with
        | some (mid, wb, term, after) =>
          some (':' :: ' ' :: '"' :: f :: mid ++ '"' :: wb ++ [term], after)
        | none => none
    | [] => none
  | _ => none

/-- The value-escaping function `/([^\\])"/g → '$1\"'` used by both
fallback replacements (source lines 751, 775). -/
def escNonBsQuoteTry (l : List Char) : Option (List Char × List Char) :=
  match l with
  | a :: '"' :: r =>
    if a = '\\' then none else some ([a, '\\', '"'], r)
  | _ => none

/-- `value.replace(/([^\\])"/g, '$1\\"')`. -/
def escVal (l : List Char) : List Char := applyRe escNonBsQuoteTry l

/-- Matcher for `/"([^"]+)":\s*"([^"]*?)"/g` with its escaping
replacement (source lines 749-753): a key (non-empty, no quotes), a
colon, a quoted value with no embedded quote; the replacement
normalises to `"key": "value"` with a single space. -/
def reFixTry (l : List Char) : Option (List Char × List Char) :=
  match l with
  | '"' :: r =>
    let (key, r1) := r.span (fun c => c ≠ '"')
    if key.isEmpty then none
    else match r1 with
    | '"' :: ':' :: r3 =>
      let (_, r4) := r3.span isJsWs
      match r4 with
      | '"' :: r5 =>
        let (val, r6) := r5.span (fun c => c ≠ '"')
        match r6 with
        | '"' :: r7 =>
          some ('"' :: key ++ '"' :: ':' :: ' ' :: '"' :: escVal val ++ ['"'], r7)
        | _ => none
      | _ => none
    | _ => none
  | _ => none

/-- Matcher for `/"([^"]+)":\s*"([^"]*)/g` with its escaping replacement
(source lines 773-777): like `reFixTry` but the value needs no closing
quote and runs to the next quote or end of input. -/
def partialFixTry (l : List Char) : Option (List Char × List Char) :=
  match l with
  | '"' :: r =>
    let (key, r1) := r.span (fun c => c ≠ '"')
    if key.isEmpty then none
    else match r1 with
    | '"' :: ':' :: r3 =>
      let (_, r4) := r3.span isJsWs
      match r4 with
      | '"' :: r5 =>
        let (val, r6) := r5.span (fun c => c ≠ '"')
        some ('"' :: key ++ '"' :: ':' :: ' ' :: '"' :: escVal val, r6)
      | _ => none
    | _ => none
  | _ => none

/-- The suffix of `l` starting at the last `{`
(JS `fixedJson.substring(fixedJson.lastIndexOf('{'))`), or `none` when
`lastIndexOf` returns `-1`. -/
def lastBraceSuffix (l : List Char) : Option (List Char) :=
  if l.contains '{' then
    some ('{' :: (l.reverse.takeWhile (fun c => c ≠ '{')).reverse)
  else none

/-! ## JSON values and `JSON.parse`

JavaScript values produced by `JSON.parse` are embedded as `Json`.
Numbers are embedded as `Rat` (every JSON numeral denotes a rational;
the doubles arising in the claims are small integers, where the two
agree exactly). Object fields keep first-insertion order with
last-value-wins on duplicate keys, as in JavaScript. -/

inductive Json where
  | null : Json
  | bool (b : Bool) : Json
  | num (q : Rat) : Json
  | str (s : List Char) : Json
  | arr (xs : List Json) : Json
  | obj (fs : List (List Char × Json)) : Json

/-- Drop JSON (not JS) whitespace: space, tab, newline, carriage return. -/
def skipJWs (l : List Char) : List Char := l.dropWhile isJsonWs

/-- Hexadecimal digit value, by code point. -/
def hexVal (c : Char) : Option Nat :=
  let n := c.toNat
  if 0x30 ≤ n && n ≤ 0x39 then some (n - 0x30)
  else if 0x61 ≤ n && n ≤ 0x66 then some (n - 0x57)
  else if 0x41 ≤ n && n ≤ 0x46 then some (n - 0x37)
  else none

/-- ASCII decimal digit. -/
def isDigit (c : Char) : Bool := '0' ≤ c && c ≤ '9'

/-- Value of a digit string, most significant first. -/
def digitsToNat (l : List Char) : Nat :=
  l.foldl (fun acc d => 10 * acc + (d.toNat - 0x30)) 0

/-- Body of a JSON string literal after the opening quote. Rejects raw
control characters and bad escapes, as `JSON.parse` does. A lone
surrogate `\uXXXX` cannot be a Lean `Char`; it is represented by
`U+FFFD` (no claim input contains one). -/
def parseStrBody (fuel : Nat) (l : List Char) : Option (List Char × List Char) :=
  match fuel with
  | 0 => none
  | fuel + 1 =>
    match l with
    | [] => none
    | '"' :: r => some ([], r)
    | '\\' :: e :: r =>
      let simpleEsc : Option Char :=
        if e = '"' then some '"'
        else if e = '\\' then some '\\'
        else if e = '/' then some '/'
        else if e = 'b' then some (Char.ofNat 0x8)
        else if e = 'f' then some (Char.ofNat 0xc)
        else if e = 'n' then some '\n'
        else if e = 'r' then some '\r'
        else if e = 't' then some '\t'
        else none
      match simpleEsc with
      | some c =>
        match parseStrBody fuel r with
        | some (s, r') => some (c :: s, r')
        | none => none
      | none =>
        if e = 'u' then
          match r with
          | h1 :: h2 :: h3 :: h4 :: r2 =>
            match hexVal h1, hexVal h2, hexVal h3, hexVal h4 with
            | some a, some b, some c, some d =>
              let n := ((a * 16 + b) * 16 + c) * 16 + d
              if 0xd800 ≤ n && n ≤ 0xdbff then
                match r2 with
                | '\\' :: 'u' :: g1 :: g2 :: g3 :: g4 :: r3 =>
                  match hexVal g1, hexVal g2, hexVal g3, hexVal g4 with
                  | some a2, some b2, some c2, some d2 =>
                    let m := ((a2 * 16 + b2) * 16 + c2) * 16 + d2
                    if 0xdc00 ≤ m && m ≤ 0xdfff then
                      let sc := 0x10000 + (n - 0xd800) * 0x400 + (m - 0xdc00)
                      match parseStrBody fuel r3 with
                      | some (s, r') => some (Char.ofNat sc :: s, r')
                      | none => none
                    else
                      match parseStrBody fuel r2 with
                      | some (s, r') => some (Char.ofNat 0xfffd :: s, r')
                      | none => none
                  | _, _, _, _ =>
                    match parseStrBody fuel r2 with
                    | some (s, r') => some (Char.ofNat 0xfffd :: s, r')
                    | none => none
                | _ =>
                  match parseStrBody fuel r2 with
                  | some (s, r') => some (Char.ofNat 0xfffd :: s, r')
                  | none => none
              else if 0xdc00 ≤ n && n ≤ 0xdfff then
                match parseStrBody fuel r2 with
                | some (s, r') => some (Char.ofNat 0xfffd :: s, r')
                | none => none
              else
                match parseStrBody fuel r2 with
                | some (s, r') => some (Char.ofNat n :: s, r')
                | none => none
            | _, _, _, _ => none
          | _ => none
        else none
    | c :: r =>
      if c.toNat < 0x20 then none
      else
        match parseStrBody fuel r with
        | some (s, r') => some (c :: s, r')
        | none => none

/-- JSON number literal per the JSON grammar:
`-? (0 | [1-9][0-9]*) (\.[0-9]+)? ([eE][+-]?[0-9]+)?`. -/
def parseNum (l : List Char) : Option (Rat × List Char) :=
  let (sign, l1) : Int × List Char :=
    match l with
    | '-' :: r => (-1, r)
    | _ => (1, l)
  let intPart : Option (List Char × List Char) :=
    match l1 with
    | '0' :: r => some (['0'], r)
    | c :: _ =>
      if isDigit c && c ≠ '0' then
        let (ds, r) := l1.span isDigit
        some (ds, r)
      else none
    | [] => none
  match intPart with
  | none => none
  | some (ds, r1) =>
    let fracPart : Option (List Char × List Char) :=
      match r1 with
      | '.' :: r2 =>
        let (fs, r3) := r2.span isDigit
        if fs.isEmpty then none else some (fs, r3)
      | _ => some ([], r1)
    match fracPart with
    | none => none
    | some (fs, r4) =>
      let expPart : Option (Int × List Char) :=
        match r4 with
        | c :: r5 =>
          if c = 'e' || c = 'E' then
            let (esign, r6) : Int × List Char :=
              match r5 with
              | '+' :: r7 => (1, r7)
              | '-' :: r7 => (-1, r7)
              | _ => (1, r5)
            let (es, r8) := r6.span isDigit
            if es.isEmpty then none else some (esign * digitsToNat es, r8)
          else some (0, r4)
        | [] => some (0, [])
      match expPart with
      | none => none
      | some (e, r9) =>
        -- Integer literals take the direct branch; the general branch is
        -- the same rational written with the usual scaling.
        if fs.isEmpty && e = 0 then
          some (((sign * digitsToNat ds : Int) : Rat), r9)
        else
          let mantissa : Int := sign * (digitsToNat ds * 10 ^ fs.length + digitsToNat fs)
          let base : Rat := (mantissa : Rat) / ((10 : Rat) ^ fs.length)
          let q : Rat :=
            if 0 ≤ e then base * (10 : Rat) ^ e.toNat
            else base / (10 : Rat) ^ (-e).toNat
          some (q, r9)

/-- Insert a parsed object field: on a duplicate key the value is
overwritten in place (JS object assignment). -/
def objInsert (fs : List (List Char × Json)) (k : List Char) (v : Json) :
    List (List Char × Json) :=
  match fs with
  | [] => [(k, v)]
  | (k0, v0) :: rest =>
    if k0 = k then (k0, v) :: rest else (k0, v0) :: objInsert rest k v

mutual

/-- A JSON value, consuming leading JSON whitespace. -/
def parseValue (fuel : Nat) (l : List Char) : Option (Json × List Char) :=
  match fuel with
  | 0 => none
  | fuel + 1 =>
    match skipJWs l with
    | 'n' :: 'u' :: 'l' :: 'l' :: r => some (.null, r)
    | 't' :: 'r' :: 'u' :: 'e' :: r => some (.bool true, r)
    | 'f' :: 'a' :: 'l' :: 's' :: 'e' :: r => some (.bool false, r)
    | '"' :: r =>
      match parseStrBody (r.length + 1) r with
      | some (s, r') => some (.str s, r')
      | none => none
    | '[' :: r => parseArrBody fuel r
    | '{' :: r => parseObjBody fuel r
    | c :: r =>
      if isDigit c || c = '-' then
        match parseNum (c :: r) with
        | some (q, r') => some (.num q, r')
        | none => none
      else none
    | [] => none

/-- Array elements after `[`. -/
def parseArrBody (fuel : Nat) (l : List Char) : Option (Json × List Char) :=
  match fuel with
  | 0 => none
  | fuel + 1 =>
    match skipJWs l with
    | ']' :: r => some (.arr [], r)
    | _ => parseArrElems fuel [] l

/-- Comma-separated array elements, accumulating in reverse. -/
def parseArrElems (fuel : Nat) (acc : List Json) (l : List Char) :
    Option (Json × List Char) :=
  match fuel with
  | 0 => none
  | fuel + 1 =>
    match parseValue fuel l with
    | none => none
    | some (v, r) =>
      match skipJWs r with
      | ',' :: r2 => parseArrElems fuel (v :: acc) r2
      | ']' :: r2 => some (.arr (v :: acc).reverse, r2)
      | _ => none

/-- Object members after `{`. -/
def parseObjBody (fuel : Nat) (l : List Char) : Option (Json × List Char) :=
  match fuel with
  | 0 => none
  | fuel + 1 =>
    match skipJWs l with
    | '}' :: r => some (.obj [], r)
    | _ => parseObjMems fuel [] l

/-- Comma-separated object members. -/
def parseObjMems (fuel : Nat) (acc : List (List Char × Json)) (l : List Char) :
    Option (Json × List Char) :=
  match fuel with
  | 0 => none
  | fuel + 1 =>
    match skipJWs l with
    | '"' :: r =>
      match parseStrBody (r.length + 1) r with
      | none => none
      | some (k, r1) =>
        match skipJWs r1 with
        | ':' :: r2 =>
          match parseValue fuel r2 with
          | none => none
          | some (v, r3) =>
            let acc' := objInsert acc k v
            match skipJWs r3 with
            | ',' :: r4 => parseObjMems fuel acc' r4
            | '}' :: r4 => some (.obj acc', r4)
            | _ => none
        | _ => none
    | _ => none

end

/-- `JSON.parse`: a single value with only whitespace around it. -/
def parseJson (l : List Char) : Option Json :=
  match parseValue (l.length + 2) l with
  | some (v, rest) => if (skipJWs rest).isEmpty then some v else none
  | none => none

/-! ## JavaScript `Number` coercion

`extractPath` evaluates `Number(item[0])` on arbitrary JSON values;
a JS number can be `NaN`, embedded here as `none : Option Rat`.
Non-numeric conversion goes through `toString`: in particular
`Number([1,1])` is `Number("1,1")`, which is `NaN`. -/

/-- Decimal rendering of a rational for array `toString`. All numbers met
by this code path in the claims are integers; the non-integer branch
falls back to the `num/den` rendering, which like the JS original is
only a display form. -/
def ratToStr (q : Rat) : List Char :=
  if q.den = 1 then (toString q.num).data else (toString q).data

/-- Comma-join, `Array.prototype.join(",")`. -/
def joinComma (ls : List (List Char)) : List Char :=
  match ls with
  | [] => []
  | [x] => x
  | x :: rest => x ++ ',' :: joinComma rest

mutual

/-- Element conversion of `Array.prototype.toString`: `null` and
`undefined` become empty, arrays flatten recursively, objects become
`[object Object]`. -/
def jsonToStrForNum : Json → List Char
  | .null => []
  | .bool b => if b then ['t','r','u','e'] else ['f','a','l','s','e']
  | .num q => ratToStr q
  | .str s => s
  | .arr xs => joinComma (jsonListToStr xs)
  | .obj _ => "[object Object]".data

/-- `toString` of each element of a list. -/
def jsonListToStr : List Json → List (List Char)
  | [] => []
  | x :: xs => jsonToStrForNum x :: jsonListToStr xs

end

/-- `Number(string)`: JS-trim, empty means `0`, otherwise an optionally
signed decimal with optional fraction and exponent consuming the whole
string; anything else is `NaN` (`none`). The unreachable-here numeric
string forms (hex literals, `Infinity`) also map to `none`. -/
def jsNumOfStr (s : List Char) : Option Rat :=
  let t := jsTrim s
  if t.isEmpty then some 0
  else
    let (sign, t1) : Int × List Char :=
      match t with
      | '+' :: r => (1, r)
      | '-' :: r => (-1, r)
      | _ => (1, t)
    let (ds, r1) := t1.span isDigit
    let (fs, r2) : List Char × List Char :=
      match r1 with
      | '.' :: rf => rf.span isDigit
      | _ => ([], r1)
    let r2' := if r1.head? = some '.' then r2 else r1
    if ds.isEmpty && fs.isEmpty then none
    else
      let (e, r3) : Option Int × List Char :=
        match r2' with
        | c :: r4 =>
          if c = 'e' || c = 'E' then
            let (esign, r5) : Int × List Char :=
              match r4 with
              | '+' :: r6 => (1, r6)
              | '-' :: r6 => (-1, r6)
              | _ => (1, r4)
            let (es, r7) := r5.span isDigit
            if es.isEmpty then (none, r7) else (some (esign * digitsToNat es), r7)
          else (some 0, r2')
        | [] => (some 0, [])
      match e with
      | none => none
      | some e =>
        if r3.isEmpty then
          if fs.isEmpty && e = 0 then
            some ((sign * digitsToNat ds : Int) : Rat)
          else
            let mantissa : Int := sign * (digitsToNat ds * 10 ^ fs.length + digitsToNat fs)
            let base : Rat := (mantissa : Rat) / ((10 : Rat) ^ fs.length)
            some (if 0 ≤ e then base * (10 : Rat) ^ e.toNat
                  else base / (10 : Rat) ^ (-e).toNat)
        else none

/-- JS `Number(v)` on a JSON value. -/
def jsNumber : Json → Option Rat
  | .num q => some q
  | .str s => jsNumOfStr s
  | .null => some 0
  | .bool b => some (if b then 1 else 0)
  | .arr xs => jsNumOfStr (jsonToStrForNum (.arr xs))
  | .obj _ => none

/-! ## The fence and envelope stripper, and the tier chain -/

/-- Fence removal and trim (source line 522). -/
def stripFences (l : List Char) : List Char :=
  jsTrim (applyRe fenceTry l)

/-- Suffix-closing step of the greedy regex `/\{[\s\S]*\}/`: the prefix
of `rest` ending at its last `}`, if any. -/
def upToLastClose (rest : List Char) : Option (List Char) :=
  let r := rest.reverse.dropWhile (fun c => c ≠ '}')
  if r.isEmpty then none else some r.reverse

/-- Leftmost match of the greedy envelope regex `/\{[\s\S]*\}/`
(source line 525): at each position the engine requires `{` and then
extends to the last `}` of the remaining text. -/
def envMatch : List Char → Option (List Char)
  | [] => none
  | c :: rest =>
    if c = '{' then
      match upToLastClose rest with
      | some pre => some ('{' :: pre)
      | none => envMatch rest
    else envMatch rest

/-- Envelope extraction (source lines 525-528): replace the text by the
regex match when there is one, keep it unchanged otherwise. -/
def envelopeStep (l : List Char) : List Char :=
  match envMatch l with
  | some m => m
  | none => l

/-- The concatenation-artifact fixes, source lines 531-532. -/
def concatFixes (l : List Char) : List Char :=
  applyRe concat2Try (applyRe concat1Try l)

/-- The control-character escapes, source lines 536-540. -/
def ctrlPass (l : List Char) : List Char := applyRe ctrlTry l

/-- Newlines between properties, source lines 543-544. -/
def nlFixes (l : List Char) : List Char :=
  applyRe nlBraceTry (applyRe nlQuoteTry l)

/-- The "fix other common JSON issues" chain, source lines 631-635. -/
def commonFixes (l : List Char) : List Char :=
  applyRe valTry (applyRe keyTry (applyRe tcBrackTry (applyRe tcBraceTry l)))

/-- Value of the variable `cleaned` at source line 635, just before the
first `JSON.parse` attempt. -/
def cleanedText (content : List Char) : List Char :=
  commonFixes (fixQuotes1 (nlFixes (ctrlPass (concatFixes (envelopeStep (stripFences content))))))

/-- Value of `fixedJson` at source line 737 (the catch block re-runs the
concatenation fix twice, lines 647-649, then the control and newline
fixes and the second state machine). -/
def catchFixedJson (cleaned : List Char) : List Char :=
  fixQuotes2 (nlFixes (ctrlPass (applyRe concat2Try (concatFixes cleaned))))

/-- `regexFixed`, source line 749. -/
def regexFixedText (fj : List Char) : List Char := applyRe reFixTry fj

/-- `partialJson`, source lines 759-790: the suffix from the last `{`,
re-fixed, with an unterminated string closed when the quote count is odd
and unclosed braces appended. -/
def partialText (fj : List Char) : Option (List Char) :=
  match lastBraceSuffix fj with
  | none => none
  | some pj0 =>
    let p1 := ctrlPass pj0
    let p2 := applyRe nlQuoteTry p1
    let p3 := applyRe partialFixTry p2
    let p4 := if countChar p3 '"' % 2 ≠ 0 then p3 ++ ['"'] else p3
    let ob := countChar p4 '{'
    let cb := countChar p4 '}'
    some (if cb < ob then p4 ++ List.replicate (ob - cb) '}' else p4)

/-! ### The regex extraction tiers (source lines 805-846) -/

/-- Greedy body `((?:[^"\\]|\\.)*)"` of the complete-field regex: the
capture runs to the first quote not consumed by a `\\.` alternative; a
missing closing quote fails the match. -/
def scanEscVal : List Char → Option (List Char × List Char)
  | [] => none
  | '"' :: t => some ([], t)
  | '\\' :: c :: t =>
    match scanEscVal t with
    | some (v, r) => some ('\\' :: c :: v, r)
    | none => none
  | ['\\'] => none
  | c :: t =>
    match scanEscVal t with
    | some (v, r) => some (c :: v, r)
    | none => none

/-- Attempt the complete-field regex `/"KEY"\s*:\s*"((?:[^"\\]|\\.)*)"/`
at the current position, returning the capture. -/
def tryFullAt (k : List Char) (l : List Char) : Option (List Char) :=
  match l with
  | '"' :: r =>
    if k.isPrefixOf r then
      match r.drop k.length with
      | '"' :: r2 =>
        let (_, r3) := r2.span isJsWs
        match r3 with
        | ':' :: r4 =>
          let (_, r5) := r4.span isJsWs
          match r5 with
          | '"' :: r6 => (scanEscVal r6).map (fun p => p.1)
          | _ => none
        | _ => none
      | _ => none
    else none
  | _ => none

/-- Leftmost match of the complete-field regex (`String.match`). -/
def searchFull (k : List Char) : List Char → Option (List Char)
  | [] => none
  | c :: rest =>
    match tryFullAt k (c :: rest) with
    | some v => some v
    | none => searchFull k rest

/-- Case-insensitive literal prefix for the `i`-flagged truncated-field
regex. Returns the rest on success. -/
def ciDropPrefix : List Char → List Char → Option (List Char)
  | [], l => some l
  | _ :: _, [] => none
  | p :: ps, c :: cs => if ciEq p c then ciDropPrefix ps cs else none

/-- Attempt the truncated-field regex `/"KEY"\s*:\s*"([^"]*)/i` at the
current position. -/
def tryTruncAt (k : List Char) (l : List Char) : Option (List Char) :=
  match l with
  | '"' :: r =>
    match ciDropPrefix k r with
    | some r1 =>
      match r1 with
      | '"' :: r2 =>
        let (_, r3) := r2.span isJsWs
        match r3 with
        | ':' :: r4 =>
          let (_, r5) := r4.span isJsWs
          match r5 with
          | '"' :: r6 => some ((r6.span (fun c => c ≠ '"')).1)
          | _ => none
        | _ => none
      | _ => none
    | none => none
  | _ => none

/-- Leftmost match of the truncated-field regex. -/
def searchTrunc (k : List Char) : List Char → Option (List Char)
  | [] => none
  | c :: rest =>
    match tryTruncAt k (c :: rest) with
    | some v => some v
    | none => searchTrunc k rest

/-- Matcher for the global unescape `/\\"/g → '"'` (source line 815). -/
def replBsQuoteTry (l : List Char) : Option (List Char × List Char) :=
  match l with
  | '\\' :: '"' :: r => some (['"'], r)
  | _ => none

/-- Matcher for the global unescape `/\\n/g → '\n'` (source line 815). -/
def replBsNTry (l : List Char) : Option (List Char × List Char) :=
  match l with
  | '\\' :: 'n' :: r => some (['\n'], r)
  | _ => none

/-- The capture post-processing `.replace(/\\"/g,'"').replace(/\\n/g,'\n')`. -/
def unescCapture (v : List Char) : List Char :=
  applyRe replBsNTry (applyRe replBsQuoteTry v)

/-- The four schema keys, in source order. -/
def robotKeys : List (List Char) := [['R','1'], ['R','2'], ['R','3'], ['R','4']]

/-- Tier 5 (source lines 807-819): each key matched independently with
the complete-field regex; the tier fires when at least one key matched,
and a key without a match is bound to the empty string. -/
def regexTierFull (cleaned : List Char) : Option Json :=
  let m1 := searchFull ['R','1'] cleaned
  let m2 := searchFull ['R','2'] cleaned
  let m3 := searchFull ['R','3'] cleaned
  let m4 := searchFull ['R','4'] cleaned
  if m1.isSome || m2.isSome || m3.isSome || m4.isSome then
    let fld : Option (List Char) → Json := fun m =>
      match m with
      | some v => .str (unescCapture v)
      | none => .str []
    some (.obj [(['R','1'], fld m1), (['R','2'], fld m2),
                (['R','3'], fld m3), (['R','4'], fld m4)])
  else none

/-- Tier 6 (source lines 821-845): `extractIncompleteTask` per key with
the truncated-field regex, empty string when no match; the tier fires
when at least one extracted value is non-empty. -/
def regexTierTrunc (cleaned : List Char) : Option Json :=
  let v1 := (searchTrunc ['R','1'] cleaned).getD []
  let v2 := (searchTrunc ['R','2'] cleaned).getD []
  let v3 := (searchTrunc ['R','3'] cleaned).getD []
  let v4 := (searchTrunc ['R','4'] cleaned).getD []
  if !v1.isEmpty || !v2.isEmpty || !v3.isEmpty || !v4.isEmpty then
    some (.obj [(['R','1'], .str v1), (['R','2'], .str v2),
                (['R','3'], .str v3), (['R','4'], .str v4)])
  else none

/-- The whole parse chain of `generateTasks` (source lines 637-851):
the value of `tasks` when some tier produced one, `none` when the final
`throw` is reached. -/
def pipelineParse (content : List Char) : Option Json :=
  let cleaned := cleanedText content
  match parseJson cleaned with
  | some t => some t
  | none =>
    let fj := catchFixedJson cleaned
    match parseJson fj with
    | some t => some t
    | none =>
      match parseJson (regexFixedText fj) with
      | some t => some t
      | none =>
        match (partialText fj).bind parseJson with
        | some t => some t
        | none =>
          match regexTierFull cleaned with
          | some t => some t
          | none => regexTierTrunc cleaned

/-! ## The task validator (source lines 853-892) -/

/-- Status of one robot field under the validator's test
`!task || task.trim().length < 5 || task.toLowerCase().includes(...)`.
A present non-string truthy value would make `task.trim()` throw a
`TypeError`; that case is tracked separately. -/
inductive FieldStatus where
  | missing : FieldStatus
  | valid (s : List Char) : FieldStatus
  | typeErr : FieldStatus

/-- Field lookup `tasks[robotId]` on the parsed value. -/
def lookupField (t : Json) (k : List Char) : Option Json :=
  match t with
  | .obj fs => (fs.find? (fun p => p.1 == k)).map (fun p => p.2)
  | _ => none

/-- The validator's per-field test (source lines 860-863). -/
def fieldStatus (v : Option Json) : FieldStatus :=
  match v with
  | none => .missing
  | some .null => .missing
  | some (.bool false) => .missing
  | some (.bool true) => .typeErr
  | some (.num q) => if q = 0 then .missing else .typeErr
  | some (.str s) =>
    if s.isEmpty then .missing
    else if decide ((jsTrim s).length < 5)
         || hasSubCI s "idle".data
         || hasSubCI s "not assigned".data
         || hasSubCI s "no task".data then .missing
    else .valid s
  | some (.arr _) => .typeErr
  | some (.obj _) => .typeErr

/-- The collection loop of lines 858-868: `missingRobots` and
`validTasks` in iteration order; `none` when a `TypeError` interrupts. -/
def validateGo (t : Json) :
    List (List Char) → List (List Char) × List (List Char) →
    Option (List (List Char) × List (List Char))
  | [], (m, v) => some (m.reverse, v.reverse)
  | k :: ks, (m, v) =>
    match fieldStatus (lookupField t k) with
    | .typeErr => none
    | .missing => validateGo t ks (k :: m, v)
    | .valid s => validateGo t ks (m, s :: v)

/-- `lastTask.endsWith('"')`. -/
def endsWithQuote (s : List Char) : Bool :=
  s.getLast? = some '"'

/-- `lastTask.match(/\]\s*"$/m)`: somewhere a `]`, then whitespace, then
`"` standing at the end of a line (end of input or before a line
terminator, `m` flag). -/
def tailBracketQuote : List Char → Bool
  | [] => false
  | c :: t =>
    (c = ']' &&
      (let (_, t1) := t.span isJsWs
       match t1 with
       | '"' :: t2 =>
         match t2 with
         | [] => true
         | d :: _ => d = '\n' || d = '\r' || d.toNat = 0x2028 || d.toNat = 0x2029
       | _ => false)) ||
    tailBracketQuote t

/-- The truncation test on the last valid task (source lines 873-876). -/
def isTruncatedTask (s : List Char) : Bool :=
  (hasSub s "Path:".data && !hasSub s "]]".data) ||
  (decide (300 < s.length) && !tailBracketQuote s && !endsWithQuote s)

/-- Outcome of `generateTasks` after the parse chain: the thrown errors
and the returned value (with the `missingRobots` list that a warning
would report). -/
inductive TaskOutcome where
  | parseFailed : TaskOutcome
  | typeError : TaskOutcome
  | truncatedError (lastTask : List Char) : TaskOutcome
  | insufficient (missing : List (List Char)) : TaskOutcome
  | ok (missing : List (List Char)) : TaskOutcome
deriving DecidableEq

/-- The validation of lines 853-892: truncation check first (it throws),
then the fewer-than-two check (it throws naming the missing robots),
else success. -/
def validateTasks (t : Json) : TaskOutcome :=
  match validateGo t robotKeys ([], []) with
  | none => .typeError
  | some (missing, valid) =>
    match valid.getLast? with
    | some last =>
      if isTruncatedTask last then .truncatedError last
      else if valid.length < 2 then .insufficient missing
      else .ok missing
    | none =>
      if valid.length < 2 then .insufficient missing
      else .ok missing

/-- End-to-end result of the recovery engine on one raw response. -/
def generateTasksResult (content : List Char) : TaskOutcome :=
  match pipelineParse content with
  | none => .parseFailed
  | some t => validateTasks t

/-- The string recovered for one field by the parse chain. -/
def recoveredField (content : List Char) (k : List Char) : Option (List Char) :=
  match pipelineParse content with
  | some t =>
    match lookupField t k with
    | some (.str s) => some s
    | _ => none
  | none => none

/-! ## Spec-level pass groupings

The specification names three textual passes; these are the source
rewrites grouped as §4.2 (structural cleanup: concatenation fixes and
the common fixes) and §4.3 (control-character normalizer including the
between-property newline collapse). §4.4 is `fixQuotes1`/`fixQuotes2`. -/

/-- The structural cleanup pass of spec §4.2: the rewrites of source
lines 531-532 and 631-635 in their stated order. -/
def structuralCleanupPass (l : List Char) : List Char :=
  commonFixes (concatFixes l)

/-- The control-character normalizer of spec §4.3: source lines 536-544. -/
def controlCharPass (l : List Char) : List Char :=
  nlFixes (ctrlPass l)

/-- Following the specification's words (§4.1), for comparison with the
code: locate the first `{` and the matching top-level `}` by
brace-depth counting and return exactly that balanced substring;
with no balanced pair the text is returned unchanged. -/
def depthTake : Nat → List Char → List Char → Option (List Char)
  | _, _, [] => none
  | depth, acc, c :: rest =>
    if c = '}' then
      if depth = 1 then some ((c :: acc).reverse)
      else depthTake (depth - 1) (c :: acc) rest
    else if c = '{' then depthTake (depth + 1) (c :: acc) rest
    else depthTake depth (c :: acc) rest

/-- Following the specification's words (§4.1): the depth-counted
envelope. -/
def specDepthEnvelope (l : List Char) : List Char :=
  match l.dropWhile (fun c => c ≠ '{') with
  | '{' :: rest =>
    match depthTake 1 ['{'] rest with
    | some env => env
    | none => l
  | _ => l

/-! ## `extractPath` (src/app/api/test-scenarios/route.ts, lines 171-286) -/

/-- A JS coordinate: a number or `NaN`. -/
abbrev JsPair := Option Rat × Option Rat

/-- Attempt of the pattern-1 regex `/path:\s*(\[\[[\s\S]*)/i` at the
current position; on success returns the suffix starting at the `[[`
(which is also what `match1[0].indexOf('[[')` locates: the literal
`path:` and the whitespace contain no bracket). -/
def matchPathColon (l : List Char) : Option (List Char) :=
  match ciDropPrefix ['p', 'a', 't', 'h', ':'] l with
  | some r =>
    let (_, r1) := r.span isJsWs
    match r1 with
    | '[' :: '[' :: _ => some r1
    | _ => none
  | none => none

/-- Leftmost match of the pattern-1 regex. -/
def findPath1 : List Char → Option (List Char)
  | [] => none
  | c :: rest =>
    match matchPathColon (c :: rest) with
    | some suf => some suf
    | none => findPath1 rest

/-- The pattern-1 bracket-counting loop (source lines 182-197):
accumulate characters, counting `[` and `]`, and stop once a bracket
has been seen and the count returns to zero; reaching the end first
leaves `pathMatch` null. -/
def takeBal1 : Int → Bool → List Char → List Char → Option (List Char)
  | _, _, _, [] => none
  | count, found, acc, c :: rest =>
    let count' := if c = '[' then count + 1 else if c = ']' then count - 1 else count
    let found' := found || c = '['
    let acc' := c :: acc
    if found' && count' = 0 then some acc'.reverse
    else takeBal1 count' found' acc' rest

/-- `command.indexOf('[[')` as the suffix from the first `[[`. -/
def findBrackets : List Char → Option (List Char)
  | '[' :: '[' :: rest => some ('[' :: '[' :: rest)
  | _ :: rest => findBrackets rest
  | [] => none

/-- The pattern-2 bracket-counting loop (source lines 201-217), with its
`pathStr.length > 2` guard. -/
def takeBal2 : Int → List Char → List Char → Option (List Char)
  | _, _, [] => none
  | count, acc, c :: rest =>
    let count' := if c = '[' then count + 1 else if c = ']' then count - 1 else count
    let acc' := c :: acc
    if count' = 0 && 2 < acc'.length then some acc'.reverse
    else takeBal2 count' acc' rest

/-- `pathMatch[1]`: pattern 1, falling back to pattern 2 whenever
pattern 1 left `pathMatch` null. -/
def pathLiteral (cmd : List Char) : Option (List Char) :=
  let viaBrackets : Option (List Char) :=
    match findBrackets cmd with
    | some suf => takeBal2 0 [] suf
    | none => none
  match findPath1 cmd with
  | some suf =>
    match takeBal1 0 false [] suf with
    | some ps => some ps
    | none => viaBrackets
  | none => viaBrackets

/-- Matcher for `/,\s+/g → ','` (source line 230). -/
def commaWsTry (l : List Char) : Option (List Char × List Char) :=
  match l with
  | ',' :: r =>
    let (w, r1) := r.span isJsWs
    if w.isEmpty then none else some ([','], r1)
  | _ => none

/-- Matcher for `/\s*\[\s*/g → '['` (source line 231). -/
def openBrTry (l : List Char) : Option (List Char × List Char) :=
  let (_, r1) := l.span isJsWs
  match r1 with
  | '[' :: r2 =>
    let (_, r3) := r2.span isJsWs
    some (['['], r3)
  | _ => none

/-- Matcher for `/\s*\]\s*/g → ']'` (source line 231). -/
def closeBrTry (l : List Char) : Option (List Char × List Char) :=
  let (_, r1) := l.span isJsWs
  match r1 with
  | ']' :: r2 =>
    let (_, r3) := r2.span isJsWs
    some ([']'], r3)
  | _ => none

/-- The reduced cleanup of the path literal (source lines 230-231). -/
def pathFixes (l : List Char) : List Char :=
  applyRe closeBrTry (applyRe openBrTry (applyRe commaWsTry l))

/-- One match of the manual-extraction regex `/\[(\d+)\s*,\s*(\d+)\]/g`. -/
def coordTry (l : List Char) : Option ((Nat × Nat) × List Char) :=
  match l with
  | '[' :: r =>
    let (d1, r1) := r.span isDigit
    if d1.isEmpty then none
    else
      let (_, r2) := r1.span isJsWs
      match r2 with
      | ',' :: r3 =>
        let (_, r4) := r3.span isJsWs
        let (d2, r5) := r4.span isDigit
        if d2.isEmpty then none
        else
          match r5 with
          | ']' :: r6 => some ((digitsToNat d1, digitsToNat d2), r6)
          | _ => none
      | _ => none
  | _ => none

/-- `matchAll` of the manual-extraction regex, left to right,
non-overlapping. -/
def collectCoords : Nat → List Char → List (Nat × Nat)
  | 0, _ => []
  | _ + 1, [] => []
  | fuel + 1, c :: rest =>
    match coordTry (c :: rest) with
    | some (p, suffix) => p :: collectCoords fuel suffix
    | none => collectCoords fuel rest

/-- The last-resort coordinate extraction (source lines 236-240). -/
def manualCoords (l : List Char) : List (Nat × Nat) :=
  collectCoords (l.length + 1) l

/-- The per-item coercion of source lines 251-256: an array of length at
least 2 becomes `[Number(item[0]), Number(item[1])]`, anything else is
`null` and is filtered out. -/
def itemToPair : Json → Option JsPair
  | .arr (a :: b :: _) => some (jsNumber a, jsNumber b)
  | _ => none

/-- `scenarioGrid[row]` for a JS number index: defined only for an
integral index within bounds. -/
def rowAt (g : List (List Char)) (r : Rat) : Option (List Char) :=
  if r.den = 1 && 0 ≤ r.num then g.get? r.num.toNat else none

/-- `row[col]` for a JS number index. -/
def cellAt (row : List Char) (c : Rat) : Option Char :=
  if c.den = 1 && 0 ≤ c.num then row.get? c.num.toNat else none

/-- The obstacle test of source lines 262-266:
`row >= 0 && row < grid.length && col >= 0 && col < grid[row]?.length &&
grid[row][col] === 'S'`. Comparisons with `NaN` are false, so a pair
with a `NaN` member is never an obstacle. -/
def isObstacleCell (g : List (List Char)) (p : JsPair) : Bool :=
  match p with
  | (some r, some c) =>
    decide (0 ≤ r) && decide (r < (g.length : Rat)) && decide (0 ≤ c) &&
    (match rowAt g r with
     | some row => decide (c < (row.length : Rat)) && (cellAt row c == some 'S')
     | none => false)
  | _ => false

/-- The obstacle filter (source lines 261-275): drop pairs on a shelf
cell, but fall back to the unfiltered list if nothing survives. -/
def filterObstacles (g : List (List Char)) (ps : List JsPair) : List JsPair :=
  let filt := ps.filter (fun p => !isObstacleCell g p)
  if 0 < filt.length then filt else ps

/-- The tail of `extractPath` after a value was parsed
(source lines 250-280). -/
def finishPath (parsed : Json) (grid : Option (List (List Char))) :
    Option (List JsPair) :=
  match parsed with
  | .arr items =>
    if 0 < items.length then
      let result := items.filterMap itemToPair
      if 0 < result.length then
        match grid with
        | some g => some (filterObstacles g result)
        | none => some result
      else none
    else none
  | _ => none

/-- `extractPath(command, scenarioGrid?)` (source lines 171-286). Every
exception of the original lands in the surrounding catch and yields
`undefined`, embedded as `none`. -/
def extractPath (command : List Char) (grid : Option (List (List Char))) :
    Option (List JsPair) :=
  if command.isEmpty then none
  else
    match pathLiteral command with
    | none => none
    | some ps0 =>
      let ps := jsTrim ps0
      let parsed? : Option Json :=
        match parseJson ps with
        | some v => some v
        | none =>
          let ps2 := pathFixes ps
          match parseJson ps2 with
          | some v => some v
          | none =>
            let coords := manualCoords ps2
            if coords.isEmpty then none
            else some (.arr (coords.map (fun p => .arr [.num p.1, .num p.2])))
      match parsed? with
      | none => none
      | some parsed => finishPath parsed grid

/-! ## Idempotence of the quote-disambiguation state machine

The machine only ever rewrites a quote to a backslash-quote pair, and
its escape tracking consumes such a pair verbatim on a second run, so a
second pass reproduces its input. The proof runs the two passes in
lockstep; the only delicate point is that the `closesString` lookahead
still holds on the rewritten tail, which the three preservation lemmas
establish. -/

theorem fixQGo_nil (nl esc inStr : Bool) (last : Option Char) :
    fixQGo nl esc inStr last [] = [] := by
  cases esc <;> rfl

theorem fixQGo_escNext (nl inStr : Bool) (last : Option Char) (c : Char)
    (rest : List Char) :
    fixQGo nl true inStr last (c :: rest) =
      c :: fixQGo nl false inStr (if isJsWs c then last else some c) rest := rfl

theorem fixQGo_bs (nl inStr : Bool) (last : Option Char) (rest : List Char) :
    fixQGo nl false inStr last ('\\' :: rest) =
      '\\' :: fixQGo nl true inStr (some '\\') rest := by
  simp [fixQGo]

theorem fixQGo_other (nl inStr : Bool) (last : Option Char) {c : Char}
    (rest : List Char) (h1 : c ≠ '\\') (h2 : c ≠ '"') :
    fixQGo nl false inStr last (c :: rest) =
      c :: fixQGo nl false inStr (if isJsWs c then last else some c) rest := by
  simp [fixQGo, h1, h2]

theorem fixQGo_close (nl : Bool) (last : Option Char) {rest : List Char}
    (h : closesAux nl rest = true) :
    fixQGo nl false true last ('"' :: rest) =
      '"' :: fixQGo nl false false (some '"') rest := by
  simp [fixQGo, h]

theorem fixQGo_escq (nl : Bool) (last : Option Char) {rest : List Char}
    (h : closesAux nl rest = false) :
    fixQGo nl false true last ('"' :: rest) =
      '\\' :: '"' :: fixQGo nl false true (some '"') rest := by
  simp [fixQGo, h]

theorem fixQGo_open (nl : Bool) {last : Option Char} (rest : List Char)
    (h : last = some ':') :
    fixQGo nl false false last ('"' :: rest) =
      '"' :: fixQGo nl false true (some '"') rest := by
  simp [fixQGo, h]

theorem fixQGo_struct (nl : Bool) {last : Option Char} (rest : List Char)
    (h : ¬ last = some ':') :
    fixQGo nl false false last ('"' :: rest) =
      '"' :: fixQGo nl false false (some '"') rest := by
  simp [fixQGo, h]

theorem closesAux_ws (nl : Bool) {c : Char} (t : List Char)
    (hw : isJsWs c = true) :
    closesAux nl (c :: t) = closesAux nl t := by
  simp [closesAux, hw]

theorem closesAux_cons (nl : Bool) {c : Char} (t : List Char)
    (hw : isJsWs c = false) :
    closesAux nl (c :: t) =
      ((c = ',' || c = '}' || c = ']') ||
       (nl && (c = '\n' || c = '\r')) ||
       lookRegex1 ((c :: t).take 20) || lookRegex2 ((c :: t).take 20)) := by
  simp [closesAux, hw]

theorem lookRegex1_shape {w : List Char} (h : lookRegex1 w = true) :
    ∃ c₂ w', w = '"' :: c₂ :: w' ∧ ('1' ≤ c₂ && c₂ ≤ 'R') = true ∧
      wsThenColon w' = true := by
  rcases w with _ | ⟨x, _ | ⟨c₂, w'⟩⟩
  · simp [lookRegex1] at h
  · simp [lookRegex1] at h
  · by_cases hx : x = '"'
    · subst hx
      simp only [lookRegex1, Bool.and_eq_true] at h
      exact ⟨c₂, w', rfl, by simp [h.1], h.2⟩
    · simp [lookRegex1, hx] at h

theorem lookRegex2_shape {w : List Char} (h : lookRegex2 w = true) :
    ∃ w', w = '"' :: w' ∧ lookRegex2Tail w' = true := by
  rcases w with _ | ⟨x, w'⟩
  · simp [lookRegex2] at h
  · by_cases hx : x = '"'
    · subst hx
      exact ⟨w', rfl, by simpa [lookRegex2] using h⟩
    · simp [lookRegex2, hx] at h

theorem wsColon_pres (nl : Bool) :
    ∀ (t : List Char) (k : Nat) (i : Bool) (l : Option Char),
      wsThenColon (t.take k) = true →
      wsThenColon ((fixQGo nl false i l t).take k) = true := by
  intro t
  induction t with
  | nil => intro k i l h; simp [wsThenColon] at h
  | cons d t₃ ih =>
    intro k i l h
    cases k with
    | zero => simp [wsThenColon] at h
    | succ k' =>
      rw [List.take_succ_cons] at h
      by_cases hc : d = ':'
      · subst hc
        rw [fixQGo_other nl i l t₃ (by decide) (by decide),
            List.take_succ_cons]
        simp [wsThenColon]
      · by_cases hw : isJsWs d = true
        · have h1 : d ≠ '\\' := by
            intro e; rw [e] at hw; exact absurd hw (by decide)
          have h2 : d ≠ '"' := by
            intro e; rw [e] at hw; exact absurd hw (by decide)
          simp only [wsThenColon, hc, hw, if_false, if_true] at h
          rw [fixQGo_other nl i l t₃ h1 h2, List.take_succ_cons]
          simp only [wsThenColon, hc, hw, if_false, if_true]
          exact ih k' i _ h
        · simp [wsThenColon, hc, hw] at h

theorem reg2_pres (nl : Bool) :
    ∀ (t : List Char) (k : Nat) (i : Bool) (l : Option Char),
      lookRegex2Tail (t.take k) = true →
      lookRegex2Tail ((fixQGo nl false i l t).take k) = true := by
  intro t
  induction t with
  | nil => intro k i l h; simp [lookRegex2Tail] at h
  | cons d t₃ ih =>
    intro k i l h
    cases k with
    | zero => simp [lookRegex2Tail] at h
    | succ k' =>
      rw [List.take_succ_cons] at h
      by_cases hterm : (d = ',' || d = '}' || d = ']' || d = '\n' || d = '\r') = true
      · have h1 : d ≠ '\\' := by
          intro e; rw [e] at hterm; exact absurd hterm (by decide)
        have h2 : d ≠ '"' := by
          intro e; rw [e] at hterm; exact absurd hterm (by decide)
        rw [fixQGo_other nl i l t₃ h1 h2, List.take_succ_cons]
        simp only [lookRegex2Tail, hterm, if_true]
      · by_cases hw : isJsWs d = true
        · have h1 : d ≠ '\\' := by
            intro e; rw [e] at hw; exact absurd hw (by decide)
          have h2 : d ≠ '"' := by
            intro e; rw [e] at hw; exact absurd hw (by decide)
          simp only [lookRegex2Tail, hterm, hw, if_false, if_true] at h
          rw [fixQGo_other nl i l t₃ h1 h2, List.take_succ_cons]
          simp only [lookRegex2Tail, hterm, hw, if_false, if_true]
          exact ih k' i _ h
        · simp [lookRegex2Tail, hterm, hw] at h

theorem closes_pres (nl : Bool) :
    ∀ (rest : List Char), closesAux nl rest = true →
      closesAux nl (fixQGo nl false false (some '"') rest) = true := by
  intro rest
  induction rest with
  | nil => intro _; simp [fixQGo_nil, closesAux]
  | cons c t ih =>
    intro h
    by_cases hw : isJsWs c = true
    · have h1 : c ≠ '\\' := by
        intro e; rw [e] at hw; exact absurd hw (by decide)
      have h2 : c ≠ '"' := by
        intro e; rw [e] at hw; exact absurd hw (by decide)
      rw [closesAux_ws nl t hw] at h
      rw [fixQGo_other nl false (some '"') t h1 h2, hw]
      rw [closesAux_ws nl _ hw]
      simpa using ih h
    · have hwf : isJsWs c = false := by simpa using hw
      rw [closesAux_cons nl t hwf] at h
      simp only [Bool.or_eq_true] at h
      rcases h with ((hterm | hnl) | hr1) | hr2
      · -- the next significant character is a terminator; it is copied
        -- through and still closes
        simp only [Bool.or_eq_true, decide_eq_true_eq] at hterm
        rcases hterm with (rfl | rfl) | rfl <;>
          · rw [fixQGo_other nl false (some '"') t (by decide) (by decide)]
            rw [closesAux_cons nl _ (by decide)]
            simp
      · -- dead branch: a line break would already have been skipped as
        -- whitespace
        simp only [Bool.and_eq_true, Bool.or_eq_true, decide_eq_true_eq] at hnl
        rcases hnl.2 with rfl | rfl <;> exact absurd hwf (by decide)
      · -- the "next key" lookahead regex is preserved
        have htake : (c :: t).take 20 = c :: t.take 19 := rfl
        rw [htake] at hr1
        obtain ⟨c₂, w', hshape, hcls, hws⟩ := lookRegex1_shape hr1
        obtain ⟨hc, hwt⟩ := List.cons.inj hshape
        subst hc
        cases t with
        | nil => simp at hwt
        | cons c₂' t₂ =>
          rw [List.take_succ_cons] at hwt
          obtain ⟨e1, e2⟩ := List.cons.inj hwt
          subst e1
          have hb : c₂' ≠ '\\' := by
            intro e; rw [e] at hcls; exact absurd hcls (by decide)
          have hq : c₂' ≠ '"' := by
            intro e; rw [e] at hcls; exact absurd hcls (by decide)
          rw [fixQGo_struct nl (c₂' :: t₂) (by decide)]
          rw [fixQGo_other nl false (some '"') t₂ hb hq]
          rw [closesAux_cons nl _ (by decide)]
          have hlr : lookRegex1
              ((('"' : Char) :: c₂' ::
                fixQGo nl false false (if isJsWs c₂' = true then some '"' else some c₂') t₂).take 20) = true := by
            have htake2 : (('"' : Char) :: c₂' ::
                fixQGo nl false false (if isJsWs c₂' = true then some '"' else some c₂') t₂).take 20 =
                '"' :: c₂' ::
                (fixQGo nl false false (if isJsWs c₂' = true then some '"' else some c₂') t₂).take 18 := rfl
            rw [htake2]
            simp only [lookRegex1, Bool.and_eq_true]
            refine ⟨by simpa using hcls, ?_⟩
            have hws18 : wsThenColon (t₂.take 18) = true := by
              rw [e2]; exact hws
            exact wsColon_pres nl t₂ 18 false _ hws18
          simp only [Bool.or_eq_true]
          exact Or.inl (Or.inr hlr)
      · -- the "quote then terminator" lookahead regex is preserved
        have htake : (c :: t).take 20 = c :: t.take 19 := rfl
        rw [htake] at hr2
        obtain ⟨w', hshape, hws⟩ := lookRegex2_shape hr2
        obtain ⟨hc, hwt⟩ := List.cons.inj hshape
        subst hc
        rw [fixQGo_struct nl t (by decide)]
        rw [closesAux_cons nl _ (by decide)]
        have hlr : lookRegex2
            ((('"' : Char) :: fixQGo nl false false (some '"') t).take 20) = true := by
          have htake2 : (('"' : Char) :: fixQGo nl false false (some '"') t).take 20 =
              '"' :: (fixQGo nl false false (some '"') t).take 19 := rfl
          rw [htake2]
          simp only [lookRegex2]
          have hws19 : lookRegex2Tail (t.take 19) = true := by
            rw [hwt]; exact hws
          exact reg2_pres nl t 19 false _ hws19
        simp only [Bool.or_eq_true]
        exact Or.inr hlr

/-- Running either quote-disambiguation machine a second time, from any
state, reproduces the first run's output. -/
theorem fixQGo_idem (nl : Bool) :
    ∀ (s : List Char) (esc inStr : Bool) (last : Option Char),
      fixQGo nl esc inStr last (fixQGo nl esc inStr last s) =
        fixQGo nl esc inStr last s := by
  intro s
  induction s with
  | nil => intro esc inStr last; simp [fixQGo_nil]
  | cons c rest ih =>
    intro esc inStr last
    cases esc with
    | true =>
      rw [fixQGo_escNext, fixQGo_escNext]
      rw [ih false inStr (if isJsWs c then last else some c)]
    | false =>
      by_cases hbs : c = '\\'
      · subst hbs
        rw [fixQGo_bs, fixQGo_bs]
        rw [ih true inStr (some '\\')]
      · by_cases hq : c = '"'
        · subst hq
          cases inStr with
          | true =>
            by_cases hcl : closesAux nl rest = true
            · rw [fixQGo_close nl last hcl]
              have hcl2 := closes_pres nl rest hcl
              rw [fixQGo_close nl last hcl2]
              rw [ih false false (some '"')]
            · have hclf : closesAux nl rest = false := by simpa using hcl
              rw [fixQGo_escq nl last hclf]
              rw [fixQGo_bs, fixQGo_escNext]
              rw [show (if isJsWs '"' = true then some '\\' else some '"') = some '"' from rfl]
              rw [ih false true (some '"')]
          | false =>
            by_cases hl : last = some ':'
            · rw [fixQGo_open nl rest hl, fixQGo_open nl _ hl]
              rw [ih false true (some '"')]
            · rw [fixQGo_struct nl rest hl, fixQGo_struct nl _ hl]
              rw [ih false false (some '"')]
        · rw [fixQGo_other nl inStr last rest hbs hq,
              fixQGo_other nl inStr last _ hbs hq]
          rw [ih false inStr (if isJsWs c then last else some c)]

/-! ## Support lemmas for the envelope, filter and path theorems -/

theorem dropWhile_append_all {p : Char → Bool} :
    ∀ (l₁ l₂ : List Char), (∀ x ∈ l₁, p x = true) →
      List.dropWhile p (l₁ ++ l₂) = List.dropWhile p l₂ := by
  intro l₁
  induction l₁ with
  | nil => intro l₂ _; rfl
  | cons x l ih =>
    intro l₂ h
    rw [List.cons_append, List.dropWhile_cons]
    rw [h x (by simp)]
    simp only [if_true]
    exact ih l₂ (fun y hy => h y (by simp [hy]))

theorem dropWhile_all_nil {p : Char → Bool} :
    ∀ (l : List Char), (∀ x ∈ l, p x = true) → List.dropWhile p l = [] := by
  intro l h
  have := dropWhile_append_all l [] h
  simpa using this

theorem envMatch_pos :
    ∀ (a b c : List Char), '{' ∉ a → '}' ∉ c →
      envMatch (a ++ '{' :: b ++ '}' :: c) = some ('{' :: b ++ ['}']) := by
  intro a
  induction a with
  | nil =>
    intro b c _ hc
    rw [List.nil_append]
    show envMatch ('{' :: (b ++ '}' :: c)) = _
    unfold envMatch
    rw [if_pos rfl]
    have hup : upToLastClose (b ++ '}' :: c) = some (b ++ ['}']) := by
      unfold upToLastClose
      have hrev : (b ++ '}' :: c).reverse = c.reverse ++ '}' :: b.reverse := by
        simp
      rw [hrev]
      rw [dropWhile_append_all c.reverse ('}' :: b.reverse)
        (fun x hx => by
          simp only [List.mem_reverse] at hx
          simp only [decide_eq_true_eq]
          intro e; exact hc (e ▸ hx))]
      rw [List.dropWhile_cons]
      simp
    rw [hup]
    rfl
  | cons x a' ih =>
    intro b c hxa hc
    have hx : x ≠ '{' := fun e => hxa (by simp [e])
    rw [List.cons_append]
    show envMatch (x :: (a' ++ '{' :: b ++ '}' :: c)) = _
    unfold envMatch
    rw [if_neg hx]
    exact ih b c (fun hm => hxa (by simp [hm])) hc

theorem envMatch_none :
    ∀ l : List Char, '}' ∉ l.dropWhile (fun c => c ≠ '{') →
      envMatch l = none := by
  intro l
  induction l with
  | nil => intro _; rfl
  | cons x rest ih =>
    intro h
    by_cases hx : x = '{'
    · subst hx
      rw [List.dropWhile_cons] at h
      simp only [decide_eq_true_eq, decide_not] at h
      rw [if_neg (by simp)] at h
      simp only [List.mem_cons, not_or] at h
      have hrest : '}' ∉ rest := h.2
      unfold envMatch
      rw [if_pos rfl]
      have hup : upToLastClose rest = none := by
        unfold upToLastClose
        rw [dropWhile_all_nil rest.reverse
          (fun x hx => by
            simp only [List.mem_reverse] at hx
            simp only [decide_eq_true_eq]
            intro e; exact hrest (e ▸ hx))]
        rfl
      rw [hup]
      exact ih (fun hm =>
        hrest ((List.dropWhile_sublist (l := rest) (p := fun c => c ≠ '{')).subset hm))
    · rw [List.dropWhile_cons] at h
      rw [if_pos (by simpa using hx)] at h
      unfold envMatch
      rw [if_neg hx]
      exact ih h

theorem filterObstacles_ne_nil (g : List (List Char)) (ps : List JsPair)
    (h : ps ≠ []) : filterObstacles g ps ≠ [] := by
  unfold filterObstacles
  dsimp only
  split
  · next h1 => exact List.length_pos.mp h1
  · exact h

theorem finishPath_ne_nil :
    ∀ (parsed : Json) (grid : Option (List (List Char))) (l : List JsPair),
      finishPath parsed grid = some l → l ≠ [] := by
  intro parsed grid l h
  match parsed with
  | .null | .bool _ | .num _ | .str _ | .obj _ => simp [finishPath] at h
  | .arr items =>
    simp only [finishPath] at h
    split at h
    · split at h
      · next h2 =>
        match grid with
        | some g =>
          have hl : l = filterObstacles g (items.filterMap itemToPair) := by
            injection h with e; exact e.symm
          rw [hl]
          exact filterObstacles_ne_nil g _ (List.length_pos.mp h2)
        | none =>
          have hl : l = items.filterMap itemToPair := by
            injection h with e; exact e.symm
          rw [hl]
          exact List.length_pos.mp h2
      · exact absurd h (by simp)
    · exact absurd h (by simp)

/-- The string stored under a key of a parsed task object. -/
def jsonStrField (t : Json) (k : List Char) : Option (List Char) :=
  match lookupField t k with
  | some (.str s) => some s
  | _ => none

/-! ## The claims -/

/-- C1: the specification (following the source's own inline comments,
lines 591-605) says a quote met inside a string value closes it exactly
when the next non-whitespace token is `,`, `}`, `]`, end of input, a
line break, or another quoted schema key followed by a colon, e.g.
`"R2":` even without a preceding comma. The code disagrees with its own
comment: the lookahead `/^"[R1-R4]\s*:/` is a single character CLASS
(`R`, the range `1`-`R`, `4`) and can never match the two-character key
in `"R2":`, and the line-break disjuncts are unreachable because the
lookahead has already skipped `\n`/`\r` as whitespace. Hence on
`{"R1": "go "R2": "x"}` the quote before `"R2":` is escaped rather than
closing the value, and the whole remainder is absorbed into `R1`. -/
theorem C1_quote_close_heuristic_bug :
    closesAux true ("\"R2\": \"x\"\x7d".data) = false ∧
    fixQuotes1 ("\x7b\"R1\": \"go \"R2\": \"x\"\x7d".data) =
      "\x7b\"R1\": \"go \\\"R2\\\": \\\"x\"\x7d".data :=
  ⟨by decide, by decide⟩

/-- C2 counterexample: on the spec's embedded-quote example the engine
does not return a `Repaired` success — the companion values `x`, `y`,
`z` are shorter than five characters, so after a successful repair and
parse the validator throws the insufficient-fields error naming
`R2, R3, R4`. -/
theorem C2_cex_embedded_quote_example_fails :
    generateTasksResult
        ("\x7b\"R1\": \"Go to \"dock A\" now\", \"R2\":\"x\",\"R3\":\"y\",\"R4\":\"z\"\x7d".data) =
      TaskOutcome.insufficient [['R', '2'], ['R', '3'], ['R', '4']] := by
  decide

/-- C2 (amended): on the spec's example the repair pipeline does recover
`R1 = Go to "dock A" now` with the embedded quotes preserved as content,
but the call then fails validation because only one of the four fields
is usable; with companion values of usable length the same input shape
succeeds end to end with `R1` preserved. -/
theorem C2_embedded_quote_recovery :
    recoveredField
        ("\x7b\"R1\": \"Go to \"dock A\" now\", \"R2\":\"x\",\"R3\":\"y\",\"R4\":\"z\"\x7d".data)
        ['R', '1'] = some ("Go to \"dock A\" now".data) ∧
    generateTasksResult
        ("\x7b\"R1\": \"Go to \"dock A\" now\", \"R2\":\"x\",\"R3\":\"y\",\"R4\":\"z\"\x7d".data) =
      TaskOutcome.insufficient [['R', '2'], ['R', '3'], ['R', '4']] ∧
    recoveredField
        ("\x7b\"R1\": \"Go to \"dock A\" now\", \"R2\":\"carry pallets\",\"R3\":\"sweep aisle 3\",\"R4\":\"charge at dock\"\x7d".data)
        ['R', '1'] = some ("Go to \"dock A\" now".data) ∧
    generateTasksResult
        ("\x7b\"R1\": \"Go to \"dock A\" now\", \"R2\":\"carry pallets\",\"R3\":\"sweep aisle 3\",\"R4\":\"charge at dock\"\x7d".data) =
      TaskOutcome.ok [] :=
  ⟨by decide, by decide, by decide, by decide⟩

/-- C3 counterexample: on the spec's truncation example the engine does
not return a `PartiallyRecovered` outcome with a non-fatal
`LikelyTruncated` warning: the three `ok` values are shorter than five
characters, so the call throws the insufficient-fields error naming
`R1, R2, R3` (and the truncation check never fires, since it looks for
the case-sensitive `Path:` while the value contains `path:`). -/
theorem C3_cex_truncation_example_fails :
    generateTasksResult
        ("\x7b\"R1\":\"ok\",\"R2\":\"ok\",\"R3\":\"ok\",\"R4\":\"Navigate with path: [[0,0],[0,1".data) =
      TaskOutcome.insufficient [['R', '1'], ['R', '2'], ['R', '3']] := by
  decide

/-- C3 (amended): the brace-completion fallback does recover `R4` as the
truncated fragment, but the outcome is a hard failure: here the
insufficient-fields error (the `ok` values are unusable), and when the
truncation test does fire — case-sensitive `Path:` without `]]` — the
validator throws the truncation error rather than attaching a non-fatal
warning to a successful outcome. -/
theorem C3_truncation_hard_failure :
    recoveredField
        ("\x7b\"R1\":\"ok\",\"R2\":\"ok\",\"R3\":\"ok\",\"R4\":\"Navigate with path: [[0,0],[0,1".data)
        ['R', '4'] = some ("Navigate with path: [[0,0],[0,1".data) ∧
    generateTasksResult
        ("\x7b\"R1\":\"ok\",\"R2\":\"ok\",\"R3\":\"ok\",\"R4\":\"Navigate with path: [[0,0],[0,1".data) =
      TaskOutcome.insufficient [['R', '1'], ['R', '2'], ['R', '3']] ∧
    validateTasks
        (Json.obj [(['R', '1'], Json.str ("Deliver box to bay 7".data)),
                   (['R', '4'], Json.str ("go Path: [[0,0".data))]) =
      TaskOutcome.truncatedError ("go Path: [[0,0".data) :=
  ⟨by decide, by decide, by decide⟩

/-- C4: the obstacle filter removes exactly the pairs whose grid cell is
tagged Shelf (`'S'`), preserving relative order (the output is a sublist
of the input); when filtering removes every pair the original sequence
is returned. A pair addresses a Shelf cell precisely when both
coordinates are non-`NaN` integers indexing into the grid and the cell
is `'S'`; a pair with a `NaN` member is never an obstacle. The two
concrete examples run end to end through `extractPath`. -/
theorem C4_obstacle_filter :
    (∀ (g : List (List Char)) (ps : List JsPair),
        (filterObstacles g ps).Sublist ps) ∧
    (∀ (g : List (List Char)) (ps : List JsPair),
        ps.filter (fun p => !isObstacleCell g p) ≠ [] →
        filterObstacles g ps = ps.filter (fun p => !isObstacleCell g p)) ∧
    (∀ (g : List (List Char)) (ps : List JsPair),
        ps.filter (fun p => !isObstacleCell g p) = [] →
        filterObstacles g ps = ps) ∧
    (∀ (g : List (List Char)) (r c : Rat),
        isObstacleCell g (some r, some c) = true ↔
        ∃ row, rowAt g r = some row ∧ cellAt row c = some 'S') ∧
    (∀ (g : List (List Char)) (q : Option Rat),
        isObstacleCell g (none, q) = false ∧ isObstacleCell g (q, none) = false) ∧
    extractPath ("Deliver. Path: [[0,0],[0,1],[1,1]]".data)
        (some [['P', 'S'], ['P', 'P']]) =
      some [(some 0, some 0), (some 1, some 1)] ∧
    extractPath ("Deliver. Path: [[0,0],[0,1],[1,1]]".data)
        (some [['S', 'S'], ['S', 'S']]) =
      some [(some 0, some 0), (some 0, some 1), (some 1, some 1)] := by
  refine ⟨?_, ?_, ?_, ?_, ?_, by decide, by decide⟩
  · intro g ps
    unfold filterObstacles
    dsimp only
    split
    · exact List.filter_sublist ps
    · exact List.Sublist.refl ps
  · intro g ps hne
    unfold filterObstacles
    dsimp only
    split
    · rfl
    · next h1 => exact absurd (List.length_pos.mpr hne) h1
  · intro g ps hemp
    unfold filterObstacles
    dsimp only
    split
    · next h1 => rw [hemp] at h1; simp at h1
    · rfl
  · intro g r c
    constructor
    · intro h
      simp only [isObstacleCell, Bool.and_eq_true, decide_eq_true_eq] at h
      obtain ⟨⟨⟨h1, h2⟩, h3⟩, h4⟩ := h
      cases hrow : rowAt g r with
      | none => rw [hrow] at h4; simp at h4
      | some row =>
        rw [hrow] at h4
        simp only [Bool.and_eq_true, beq_iff_eq] at h4
        exact ⟨row, rfl, h4.2⟩
    · rintro ⟨row, hrow, hcell⟩
      have hrowc : (decide (r.den = 1) && decide (0 ≤ r.num)) = true ∧
          g.get? r.num.toNat = some row := by
        unfold rowAt at hrow
        split at hrow
        · next hc => exact ⟨hc, hrow⟩
        · exact absurd hrow (by simp)
      have hcellc : (decide (c.den = 1) && decide (0 ≤ c.num)) = true ∧
          row.get? c.num.toNat = some 'S' := by
        unfold cellAt at hcell
        split at hcell
        · next hc => exact ⟨hc, hcell⟩
        · exact absurd hcell (by simp)
      obtain ⟨hrc, hrget⟩ := hrowc
      obtain ⟨hcc, hcget⟩ := hcellc
      simp only [Bool.and_eq_true, decide_eq_true_eq] at hrc hcc
      obtain ⟨hrden, hrnum⟩ := hrc
      obtain ⟨hcden, hcnum⟩ := hcc
      have hrlt : r.num.toNat < g.length := by
        obtain ⟨hlt, -⟩ := List.get?_eq_some.mp hrget
        exact hlt
      have hclt : c.num.toNat < row.length := by
        obtain ⟨hlt, -⟩ := List.get?_eq_some.mp hcget
        exact hlt
      have hrcast : (r.num : Rat) = r := Rat.den_eq_one_iff r |>.mp hrden
      have hccast : (c.num : Rat) = c := Rat.den_eq_one_iff c |>.mp hcden
      simp only [isObstacleCell, Bool.and_eq_true, decide_eq_true_eq]
      refine ⟨⟨⟨?_, ?_⟩, ?_⟩, ?_⟩
      · rw [← hrcast]; exact_mod_cast hrnum
      · rw [← hrcast]
        have : r.num < (g.length : Int) := by omega
        exact_mod_cast this
      · rw [← hccast]; exact_mod_cast hcnum
      · rw [hrow]
        simp only [Bool.and_eq_true, beq_iff_eq, decide_eq_true_eq]
        refine ⟨?_, hcell⟩
        rw [← hccast]
        have : c.num < (row.length : Int) := by omega
        exact_mod_cast this
  · intro g q
    cases q <;> exact ⟨rfl, rfl⟩

/-- C4 witness: the concrete shelf filtering instance, obtained from the
theorem at a grid where `(0,1)` is a Shelf. -/
theorem C4_obstacle_filter_witness :
    filterObstacles [['P', 'S'], ['P', 'P']]
        [(some 0, some 0), (some 0, some 1), (some 1, some 1)] =
      List.filter (fun p => !isObstacleCell [['P', 'S'], ['P', 'P']] p)
        [(some 0, some 0), (some 0, some 1), (some 1, some 1)] :=
  C4_obstacle_filter.2.1 _ _ (by decide)

/-- C5 counterexample: neither the structural cleanup pass nor the
control-character normalizer is idempotent. Two consecutive trailing
commas in `{,,}` need two runs of the trailing-comma rewrite (the global
replace consumes its match and does not rescan it), and two raw
newlines inside one string value need two runs of the control-character
regex (the second raw newline lies beyond the first match, and no later
`: "` anchor reaches it). -/
theorem C5_cex_passes_not_idempotent :
    structuralCleanupPass (structuralCleanupPass ("\x7b,,\x7d".data)) ≠
      structuralCleanupPass ("\x7b,,\x7d".data) ∧
    controlCharPass (controlCharPass ("\x7b\"a\": \"x\ny\nz\"\x7d".data)) ≠
      controlCharPass ("\x7b\"a\": \"x\ny\nz\"\x7d".data) :=
  ⟨by decide, by decide⟩

/-- C5 (amended): the quote-disambiguation pass is idempotent on every
input, in both its variants, and in particular never double-escapes: a
backslash-quote pair in its input is copied through verbatim by the
escape-tracking state. The structural cleanup pass (§4.2) and the
control-character normalizer (§4.3) are NOT idempotent in general (see
the counterexample). -/
theorem C5_quote_pass_idempotent :
    (∀ l : List Char, fixQuotes1 (fixQuotes1 l) = fixQuotes1 l) ∧
    (∀ l : List Char, fixQuotes2 (fixQuotes2 l) = fixQuotes2 l) ∧
    (∀ (nl inStr : Bool) (last : Option Char) (r : List Char),
        fixQGo nl false inStr last ('\\' :: '"' :: r) =
          '\\' :: '"' :: fixQGo nl false inStr (some '"') r) := by
  refine ⟨fun l => fixQGo_idem true l false false none,
          fun l => fixQGo_idem false l false false none,
          fun nl inStr last r => ?_⟩
  rw [fixQGo_bs, fixQGo_escNext]
  rfl

/-- C6 counterexample: on input `{"R1":"ok"}` the validator does not
name `R2, R3, R4` as the missing keys — it names all four, because the
value `ok` itself fails the trimmed-length-at-least-5 test of the very
policy the claim states. -/
theorem C6_cex_missing_list :
    generateTasksResult ("\x7b\"R1\":\"ok\"\x7d".data) ≠
      TaskOutcome.insufficient [['R', '2'], ['R', '3'], ['R', '4']] := by
  decide

/-- C6 (amended): given only `{"R1":"ok"}` the parse succeeds and `R1`
is recovered as `ok`, but the insufficient-fields error names
`R1, R2, R3, R4`: the two-character value `ok` is itself unusable under
the trimmed-length-at-least-5 rule. -/
theorem C6_insufficient_fields_all_four :
    recoveredField ("\x7b\"R1\":\"ok\"\x7d".data) ['R', '1'] =
      some ("ok".data) ∧
    generateTasksResult ("\x7b\"R1\":\"ok\"\x7d".data) =
      TaskOutcome.insufficient [['R', '1'], ['R', '2'], ['R', '3'], ['R', '4']] :=
  ⟨by decide, by decide⟩

/-- C7 counterexample: in the regex field-extraction tier a key with no
match is not absent from the resulting field map — it is bound to the
empty string. On an input where only `R1` matches, the tier fires and
maps `R2` to `""` although the `R2` regex has no match. -/
theorem C7_cex_unmatched_key_bound_to_empty :
    searchFull ['R', '2'] ("\"R1\" : \"go to dock A\", \"R2\": broken".data) = none ∧
    (regexTierFull ("\"R1\" : \"go to dock A\", \"R2\": broken".data)).map
        (fun t => jsonStrField t ['R', '2']) = some (some []) :=
  ⟨by decide, by decide⟩

/-- C7 (amended): each of the four schema keys is matched independently
with `"KEY"\s*:\s*"((?:[^"\\]|\\.)*)"`; the tier fires exactly when at
least one key matches, a matching key is retained with its capture
unescaped (`\"` and `\n`), and a key with no match is bound to the
empty string rather than left absent. -/
theorem C7_regex_tier_fields :
    (∀ s : List Char, (regexTierFull s).isSome =
        ((searchFull ['R', '1'] s).isSome || (searchFull ['R', '2'] s).isSome ||
         (searchFull ['R', '3'] s).isSome || (searchFull ['R', '4'] s).isSome)) ∧
    (∀ (s k : List Char), k ∈ robotKeys → (regexTierFull s).isSome = true →
        (regexTierFull s).map (fun t => jsonStrField t k) =
          some (some (match searchFull k s with
                      | some v => unescCapture v
                      | none => []))) ∧
    (regexTierFull ("\"R1\" : \"go to dock A\", \"R2\": broken".data)).map
        (fun t => (jsonStrField t ['R', '1'], jsonStrField t ['R', '2'],
                   jsonStrField t ['R', '3'], jsonStrField t ['R', '4'])) =
      some (some ("go to dock A".data), some [], some [], some []) := by
  refine ⟨?_, ?_, by decide⟩
  · intro s
    unfold regexTierFull
    dsimp only
    split
    · next hcond => simp only [Option.isSome_some]; exact hcond.symm
    · next hcond =>
      simp only [Option.isSome_none]
      exact ((Bool.not_eq_true _).mp hcond).symm
  · intro s k hk hs
    unfold regexTierFull at hs ⊢
    dsimp only at hs ⊢
    split at hs
    · next hcond =>
      rw [if_pos hcond]
      simp only [Option.map_some']
      simp only [robotKeys, List.mem_cons, List.not_mem_nil, or_false] at hk
      rcases hk with rfl | rfl | rfl | rfl
      · cases hm : searchFull ['R', '1'] s <;>
          simp [jsonStrField, lookupField, List.find?, hm]
      · cases hm : searchFull ['R', '2'] s <;>
          simp [jsonStrField, lookupField, List.find?, hm]
      · cases hm : searchFull ['R', '3'] s <;>
          simp [jsonStrField, lookupField, List.find?, hm]
      · cases hm : searchFull ['R', '4'] s <;>
          simp [jsonStrField, lookupField, List.find?, hm]
    · simp at hs

/-- C7 witness: the general field rule applied to the concrete input
where `R2` has no match. -/
theorem C7_regex_tier_fields_witness :
    (regexTierFull ("\"R1\" : \"go to dock A\", \"R2\": broken".data)).map
        (fun t => jsonStrField t ['R', '2']) =
      some (some (match searchFull ['R', '2']
              ("\"R1\" : \"go to dock A\", \"R2\": broken".data) with
            | some v => unescCapture v
            | none => [])) :=
  C7_regex_tier_fields.2.1 _ _ (by decide) (by decide)

/-- C8 counterexample: envelope extraction is not depth counting. On
`x{a} {b}y` the regex `/\{[\s\S]*\}/` greedily returns `{a} {b}` (first
`{` to last `}`), while the depth-counted envelope described by the
specification would return `{a}`. -/
theorem C8_cex_envelope_not_depth_counted :
    envelopeStep ("x\x7ba\x7d \x7bb\x7dy".data) = "\x7ba\x7d \x7bb\x7d".data ∧
    specDepthEnvelope ("x\x7ba\x7d \x7bb\x7dy".data) = "\x7ba\x7d".data ∧
    envelopeStep ("x\x7ba\x7d \x7bb\x7dy".data) ≠
      specDepthEnvelope ("x\x7ba\x7d \x7bb\x7dy".data) :=
  ⟨by decide, by decide, by decide⟩

/-- C8 (amended): envelope extraction uses the greedy regex
`/\{[\s\S]*\}/`: whenever the text decomposes as
`a ++ "{" ++ b ++ "}" ++ c` with no `{` before and no `}` after, the
extracted envelope runs from the first `{` to the last `}`; when no `}`
follows the first `{` the fence-stripped text is returned unchanged. -/
theorem C8_envelope_greedy :
    (∀ a b c : List Char, '{' ∉ a → '}' ∉ c →
        envelopeStep (a ++ '{' :: b ++ '}' :: c) = '{' :: b ++ ['}']) ∧
    (∀ l : List Char, '}' ∉ l.dropWhile (fun ch => ch ≠ '{') →
        envelopeStep l = l) := by
  constructor
  · intro a b c ha hc
    unfold envelopeStep
    rw [envMatch_pos a b c ha hc]
  · intro l h
    unfold envelopeStep
    rw [envMatch_none l h]

/-- C8 witness: the greedy characterization applied to `x{a} {b}y`. -/
theorem C8_envelope_greedy_witness :
    envelopeStep ("x".data ++ '{' :: "a\x7d \x7bb".data ++ '}' :: "y".data) =
      '{' :: "a\x7d \x7bb".data ++ ['}'] :=
  C8_envelope_greedy.1 "x".data "a\x7d \x7bb".data "y".data (by decide) (by decide)

/-- C9 counterexample: on `path: [[0,0],[0,[1,1]]]` the malformed inner
pair is not dropped: the substring is valid JSON, and the mapping step
keeps `[0,[1,1]]` as the pair `(0, NaN)` because `Number([1,1])` is
`NaN`, not a rejected item. -/
theorem C9_cex_nested_pair_not_dropped :
    extractPath ("path: [[0,0],[0,[1,1]]]".data) none =
      some [(some 0, some 0), (some 0, none)] ∧
    extractPath ("path: [[0,0],[0,[1,1]]]".data) none ≠
      some [((some 0 : Option Rat), (some 0 : Option Rat))] :=
  ⟨by decide, by decide⟩

/-- C9 (amended): extraction of `path: [[0,0],[0,[1,1]]]` does not
crash; the nested bracket literal parses as JSON, the inner
`[0,[1,1]]` is retained as the pair `(0, NaN)` (`Number([1,1])` is
`NaN`) rather than dropped, and only non-array items of length under
two are dropped — as in `[[0,0],5,[1,1]]`, where `5` is dropped and the
pairs around it survive. -/
theorem C9_nested_bracket_no_crash :
    extractPath ("path: [[0,0],[0,[1,1]]]".data) none =
      some [(some 0, some 0), (some 0, none)] ∧
    extractPath ("path: [[0,0],5,[1,1]]".data) none =
      some [(some 0, some 0), (some 1, some 1)] :=
  ⟨by decide, by decide⟩

/-- C10: `extractPath` never throws — every exception path of the
original lands in its catch-all and yields `undefined` — and it returns
either a non-empty list of coordinate pairs or `undefined`; the empty
command yields `undefined` at once. -/
theorem C10_extract_path_total :
    (∀ g, extractPath [] g = none) ∧
    (∀ (cmd : List Char) (g : Option (List (List Char))) (l : List JsPair),
        extractPath cmd g = some l → l ≠ []) := by
  constructor
  · intro g; rfl
  · intro cmd g l h
    unfold extractPath at h
    split at h
    · exact absurd h (by simp)
    · dsimp only at h
      split at h
      · exact absurd h (by simp)
      · split at h
        · exact absurd h (by simp)
        · exact finishPath_ne_nil _ g l h

/-- C10 witness: a concrete successful extraction is non-empty. -/
theorem C10_extract_path_total_witness :
    ([((some 1 : Option Rat), (some 2 : Option Rat))] : List JsPair) ≠ [] :=
  C10_extract_path_total.2 ("go path: [[1,2]]".data) none
    [(some 1, some 2)] (by decide)

end Warehouse
